import Mathlib

/-!
Shallow embedding of the configuration-resolution and asset-embedding
pipeline of the md-to-pdf repository (src/lib/get-marked-with-highlighter.ts
and the conversion module containing `convertMdToPdf`).

JavaScript runtime objects are modelled as association lists of
string-keyed dynamic values (`Value`); property read (`Obj.get`) returns the
last binding, so JavaScript object spread `{...a, ...b}` is list append and
property assignment `o[k] = v` is appending a single binding.
-/

namespace MdToPdf

/-- Dynamic JavaScript values as they occur in the configuration pipeline.
`null` doubles for the JavaScript `null`; an *absent* key models
`undefined`. -/
inductive Value where
  | null : Value
  | bool (b : Bool) : Value
  | num (n : Int) : Value
  | str (s : String) : Value
  | list (elems : List Value) : Value
  | obj (fields : List (String × Value)) : Value

/-- A JavaScript object: ordered key/value bindings, later bindings win. -/
abbrev Obj := List (String × Value)

/-- Property read: the value of the *last* binding of `k` (JS objects keep a
single binding per key; with the append-based spread/assignment encoding the
last binding is the current one). Generic in the value type so that it also
serves for the marked options bag. -/
def aget {α : Type} : List (String × α) → String → Option α
  | [], _ => none
  | (k', v) :: rest, k =>
    match aget rest k with
    | some w => some w
    | none => if k' = k then some v else none

/-- Property assignment `o[k] = v`. -/
def aset {α : Type} (o : List (String × α)) (k : String) (v : α) : List (String × α) :=
  o ++ [(k, v)]

/-- JavaScript truthiness for the modelled value forms (`NaN` and other
number exotica are not modelled; `num` is an integer). -/
def Value.truthy : Value → Bool
  | .null => false
  | .bool b => b
  | .num n => n != 0
  | .str s => s ≠ ""
  | .list _ => true
  | .obj _ => true

/-- Truthiness of a possibly-undefined value (`undefined` is falsy). -/
def truthyOpt : Option Value → Bool
  | none => false
  | some v => v.truthy

/-- The fields of a value under JavaScript object spread: spreading a
non-object (here: `undefined`/`null`/scalars) contributes no fields.
(Spreading a string would contribute index keys; that corner is outside the
modelled domain — the pipeline only ever spreads objects or `undefined`.) -/
def spreadFields : Option Value → Obj
  | some (.obj fields) => fields
  | _ => []

/-! ## Front-matter merge (convertMdToPdf, lines 146–155) -/

/-- The `data` field produced by the front-matter extractor: either a
recoverable parse-error marker (`frontMatterConfig instanceof Error`) or a
parsed configuration object. -/
inductive FrontMatter where
  | err : FrontMatter
  | ok (data : Obj) : FrontMatter

/-- Lines 146–155: on a front-matter parse error, warn (second component
`true`) and leave the configuration unchanged; otherwise shallow-spread the
front matter over the configuration and nested-spread `pdf_options`. -/
def mergeFrontMatter (config : Obj) (fm : FrontMatter) : Obj × Bool :=
  match fm with
  | .err => (config, true)
  | .ok d =>
    let merged := config ++ d
    let pdfMerged := spreadFields (aget config "pdf_options") ++ spreadFields (aget d "pdf_options")
    (aset merged "pdf_options" (.obj pdfMerged), false)

/-! ## displayHeaderFooter derivation (lines 157–161) -/

/-- Lines 157–161: if `pdf_options.headerTemplate` or `.footerTemplate` is
truthy and `.displayHeaderFooter` is `undefined`, set it to `true`.
(When `pdf_options` is not an object the destructuring yields `undefined`
fields and nothing happens; the defaults always supply an object.) -/
def applyHeaderFooter (config : Obj) : Obj :=
  match aget config "pdf_options" with
  | some (.obj po) =>
    if (truthyOpt (aget po "headerTemplate") || truthyOpt (aget po "footerTemplate"))
        && (aget po "displayHeaderFooter").isNone then
      aset config "pdf_options" (.obj (aset po "displayHeaderFooter" (.bool true)))
    else config
  | _ => config

/-! ## Array-option sanitization (lines 163–170) -/

/-- The fixed set of list-valued options (line 163). -/
def arrayOptions : List String := ["body_class", "script", "stylesheet", "marked_extensions"]

/-- One step of lines 166–170: if `config[option]` is not an array, replace
it by `[config[option]].filter(Boolean)` — the one-element list, or the
empty list when the value is falsy (an absent key is falsy `undefined`). -/
def coerceArrayOption (config : Obj) (option : String) : Obj :=
  match aget config option with
  | some (.list _) => config
  | some v => aset config option (.list (if v.truthy then [v] else []))
  | none => aset config option (.list [])

/-- Lines 166–170: coerce each of the four list-valued options. -/
def sanitizeArrayOptions (config : Obj) : Obj :=
  arrayOptions.foldl coerceArrayOption config

/-! ## CLI-argument overlay (lines 172–180) -/

/-- The flags whose values are JSON payloads (line 172). -/
def jsonArgs : List String := ["--marked-options", "--pdf-options", "--launch-options", "--math-engine-options"]

/-- Line 177: `argKey.slice(2)` followed by a global replacement of every
dash by an underscore. -/
def cliKey (argKey : String) : String :=
  String.mk ((argKey.toList.drop 2).map fun c => if c = '-' then '_' else c)

/-- The stored value of one CLI argument (line 179): values of the JSON
flags go through `JSON.parse` (modelled by the external parameter
`parseJson`), all others are stored as raw strings. -/
def cliValue (parseJson : String → Value) (arg : String × String) : Value :=
  if jsonArgs.contains arg.1 then parseJson arg.2 else .str arg.2

/-- Lines 175–180: assign each CLI argument into the configuration under its
transformed key. -/
def mergeCliArgs (parseJson : String → Value) (config : Obj) (args : List (String × String)) : Obj :=
  args.foldl (fun cfg arg => aset cfg (cliKey arg.1) (cliValue parseJson arg)) config

/-- The configuration-merging portion of `convertMdToPdf` (lines 141–180),
from the front-matter merge through the CLI overlay; the Boolean records
whether the front-matter warning was emitted. -/
def mergeLayers (parseJson : String → Value) (defaults : Obj) (fm : FrontMatter)
    (args : List (String × String)) : Obj × Bool :=
  let step1 := mergeFrontMatter defaults fm
  let step2 := applyHeaderFooter step1.1
  let step3 := sanitizeArrayOptions step2
  (mergeCliArgs parseJson step3 args, step1.2)

/-- The last CLI argument whose transformed key is `k`: successive
assignments of lines 175–180 make the last one win. -/
def lastArg (args : List (String × String)) (k : String) : Option (String × String) :=
  match args with
  | [] => none
  | a :: rest =>
    match lastArg rest k with
    | some r => some r
    | none => if cliKey a.1 = k then some a else none

/-- The value a list-valued option holds after the coercion of lines
166–170, as a function of its previous value. -/
def coerceValue : Option Value → Value
  | some (.list l) => .list l
  | some v => .list (if v.truthy then [v] else [])
  | none => .list []

/-- Extensional equality of configuration objects: the same value at every
key (two JS objects that answer every property read identically). -/
def ObjEquiv (a b : Obj) : Prop := ∀ k, aget a k = aget b k

mutual

/-- JavaScript string coercion of the modelled value forms, as performed by
the template literal on line 115 (arrays join their elements with commas,
`null`/`undefined` elements joining as empty text; plain objects coerce to
`[object Object]`). -/
def jsToString : Value → String
  | .null => "null"
  | .bool b => cond b "true" "false"
  | .num n => toString n
  | .str s => s
  | .obj _ => "[object Object]"
  | .list vs => jsListToString vs

/-- `Array.prototype.join(',')` under string coercion. -/
def jsListToString : List Value → String
  | [] => ""
  | [v] => jsElemToString v
  | v :: rest => jsElemToString v ++ "," ++ jsListToString rest

/-- An array element under `join`: `null` and `undefined` become empty. -/
def jsElemToString : Value → String
  | .null => ""
  | v => jsToString v

end

/-! ## KaTeX support (get-marked-with-highlighter.ts module, lines 33–118) -/

/-- Lines 36–44: an extension descriptor counts as KaTeX-enabled when it is
an object whose `extensions` property is an array containing an entry named
`inlineKatex`. (Non-objects and `null` are rejected up front; arrays have no
`extensions` property, so they fall through to `false` as in the source.) -/
def isKatexExtension (extension : Value) : Bool :=
  match extension with
  | .obj fields =>
    match aget fields "extensions" with
    | some (.list candidates) =>
      candidates.any fun candidate =>
        match candidate with
        | .obj f =>
          match aget f "name" with
          | some (.str name) => name = "inlineKatex"
          | _ => false
        | _ => false
    | _ => false
  | _ => false

/-- Model of the external `marked-katex-extension` constructor (line 31
import): it returns a marked extension object whose `extensions` array holds
the `inlineKatex` and `blockKatex` sub-extensions. The options argument
parameterizes rendering only and does not affect the descriptor shape. -/
def markedKatex (_options : Option Value) : Value :=
  .obj [("extensions", .list
    [ .obj [("name", .str "inlineKatex")]
    , .obj [("name", .str "blockKatex")] ])]

/-- Lines 102–118, `ensureKatexSupport`: a no-op unless `math_engine` is the
string `katex`; otherwise append the KaTeX extension when none is detected,
and (when this configuration instance is not yet in the
`configsWithKatexCss` weak set, modelled by `hasMarker`) append the inlined
stylesheet to `css` and mark the instance. `katexCss` stands for the result
of `await loadKatexCss()` (a process-wide constant, see `loadKatexCss`).
Returns `none` when `marked_extensions` is not an array (`.some` would raise
a TypeError); the result is the mutated configuration and the new marker. -/
def ensureKatexSupport (katexCss : String) (config : Obj) (hasMarker : Bool) :
    Option (Obj × Bool) :=
  match aget config "math_engine" with
  | some (.str engine) =>
    if engine = "katex" then
      match aget config "marked_extensions" with
      | some (.list exts) =>
        let config' :=
          if exts.any isKatexExtension then config
          else aset config "marked_extensions"
            (.list (exts ++ [markedKatex (aget config "math_engine_options")]))
        if hasMarker then some (config', true)
        else
          let cssOld := aget config' "css"
          let newCss :=
            if truthyOpt cssOld then jsToString ((cssOld).getD .null) ++ "\n" ++ katexCss
            else katexCss
          some (aset config' "css" (.str newCss), true)
      | _ => none
    else some (config, hasMarker)
  | _ => some (config, hasMarker)

/-! ## Stylesheet inlining (lines 46–100) -/

/-- Lines 46–63, `getMimeType`: the fixed extension-to-MIME-type switch. -/
def getMimeType (extension : String) : String :=
  if extension = ".woff2" then "font/woff2"
  else if extension = ".woff" then "font/woff"
  else if extension = ".ttf" then "font/ttf"
  else if extension = ".otf" then "font/otf"
  else if extension = ".eot" then "application/vnd.ms-fontobject"
  else if extension = ".svg" then "image/svg+xml"
  else "application/octet-stream"

/-- The single-quote character. -/
def sq : Char := '\''

/-- The double-quote character. -/
def dq : Char := '"'

/-- Node's `path.extname`: the suffix of the last path segment from its last
dot; empty when the segment has no dot or only a leading dot. -/
def extname (path : String) : String :=
  let base := (path.toList.reverse.takeWhile fun c => c ≠ '/').reverse
  let afterRev := base.reverse.takeWhile fun c => c ≠ '.'
  if afterRev.length = base.length then ""
  else if afterRev.length + 1 = base.length then ""
  else String.mk ('.' :: afterRev.reverse)

/-- `toLowerCase`, character-wise (definitionally transparent form of
`String.toLower`). -/
def lowerStr (s : String) : String := String.mk (s.toList.map Char.toLower)

/-- The standard base64 alphabet. -/
def base64Table : List Char :=
  [ 'A','B','C','D','E','F','G','H','I','J','K','L','M'
  , 'N','O','P','Q','R','S','T','U','V','W','X','Y','Z'
  , 'a','b','c','d','e','f','g','h','i','j','k','l','m'
  , 'n','o','p','q','r','s','t','u','v','w','x','y','z'
  , '0','1','2','3','4','5','6','7','8','9','+','/' ]

/-- Base64 digit for a 6-bit group. -/
def b64c (i : Nat) : Char := base64Table.getD i 'A'

/-- Standard padded base64 of a byte sequence, as produced by
`Buffer.toString('base64')` (line 84). -/
def encodeBase64 : List Nat → List Char
  | [] => []
  | [b0] => [b64c (b0 / 4 % 64), b64c (b0 % 4 * 16), '=', '=']
  | [b0, b1] => [b64c (b0 / 4 % 64), b64c (b0 % 4 * 16 + b1 / 16 % 16), b64c (b1 % 16 * 4), '=']
  | b0 :: b1 :: b2 :: rest =>
    b64c (b0 / 4 % 64) :: b64c (b0 % 4 * 16 + b1 / 16 % 16) ::
      b64c (b1 % 16 * 4 + b2 / 64 % 4) :: b64c (b2 % 64) :: encodeBase64 rest

/-- A character allowed inside the captured font path: the character class
of the reference regex excludes both quotes and the closing parenthesis. -/
def fontRefChar (c : Char) : Bool := c ≠ sq && c ≠ dq && c ≠ ')'

/-- Parse the tail of a font reference, positioned just after `url(` and the
optional opening quote `q`: the literal `fonts/`, a nonempty run of
`fontRefChar`s, the closing quote matching `q` (the regex backreference),
and `)`. Returns the captured path (including `fonts/`) and the remainder
of the text after the whole match. -/
def matchFontUrlTail (q : Option Char) (cs : List Char) : Option (List Char × List Char) :=
  match cs with
  | 'f' :: 'o' :: 'n' :: 't' :: 's' :: '/' :: rest =>
    let run := rest.takeWhile fontRefChar
    let after := rest.drop run.length
    if run.isEmpty then none
    else
      match q, after with
      | none, ')' :: rem => some ('f' :: 'o' :: 'n' :: 't' :: 's' :: '/' :: run, rem)
      | some qc, c1 :: ')' :: rem =>
        if c1 = qc then some ('f' :: 'o' :: 'n' :: 't' :: 's' :: '/' :: run, rem) else none
      | _, _ => none
  | _ => none

/-- Try the font-reference regex of line 74 at the head of the text. The
optional-quote group is greedy: when a quote follows `url(`, only the quoted
alternative can succeed (the unquoted one would need `f` at the quote's
position), so the match is deterministic. -/
def matchFontUrlAt (cs : List Char) : Option (List Char × List Char) :=
  match cs with
  | 'u' :: 'r' :: 'l' :: '(' :: rest =>
    match rest with
    | c :: rest' =>
      if c = sq || c = dq then matchFontUrlTail (some c) rest'
      else matchFontUrlTail none rest
    | [] => none
  | _ => none

/-- `matchAll` scan: left-to-right, restarting after each whole match (the
`g` flag advances `lastIndex` past the match). Fuel is the text length;
every step consumes at least one character, so the fuel never runs out. -/
def findFontRefsAux : Nat → List Char → List (List Char)
  | 0, _ => []
  | _, [] => []
  | fuel + 1, c :: cs =>
    match matchFontUrlAt (c :: cs) with
    | some (path, rem) => path :: findFontRefsAux fuel rem
    | none => findFontRefsAux fuel cs

/-- All captured font paths of the stylesheet text, in match order. -/
def findFontRefs (cs : List Char) : List (List Char) := findFontRefsAux cs.length cs

/-- `Array.from(new Set(...))` (lines 72–78): de-duplicate, keeping the
first appearance order. -/
def dedupFirst (l : List (List Char)) : List (List Char) :=
  l.foldl (fun acc x => if x ∈ acc then acc else acc ++ [x]) []

/-- Global replacement of a literal pattern, leftmost-first and
non-overlapping, the replacement text never rescanned within the same pass —
the semantics of `css.replace(new RegExp(escapedLiteral, 'g'), dataUri)`
(lines 86–94; the regex-metacharacter escaping on line 87 makes the pattern
match the font path literally, and the data URI contains no `$`, so the
replacement string is literal as well). The JS patterns are never empty;
the empty-pattern equation is a harmless totalization. -/
def replaceAll (s pat rep : List Char) : List Char :=
  match pat with
  | [] => s
  | _ :: _ =>
    match s with
    | [] => []
    | c :: cs =>
      if pat.isPrefixOf (c :: cs) then
        rep ++ replaceAll (cs.drop (pat.length - 1)) pat rep
      else
        c :: replaceAll cs pat rep
termination_by s.length
decreasing_by
  all_goals simp
  omega

/-- The file system visible to the inliner: the text of
`katex/dist/katex.min.css` and the font files adjacent to it, keyed by the
relative path under which the stylesheet references them (`resolve` against
the stylesheet's directory is abstracted into this keying; the extension of
the absolute path equals the extension of the relative one). -/
structure FS where
  cssText : String
  fonts : List (String × List Nat)

/-- `fs.readFile` of a font, failing (`none`, a rejected promise) when the
file is absent. -/
def readFont (fs : FS) (rel : String) : Option (List Nat) :=
  (fs.fonts.find? fun p => p.1 = rel).map fun p => p.2

/-- Lines 80–95, one iteration of the font loop: read the font, build the
`url("data:<mime>;base64,<data>")` URI from the extension-derived MIME type
and the base64-encoded bytes, and replace the unquoted, single-quoted and
double-quoted forms of the reference — all three with the same URI. -/
def inlineFont (fs : FS) (css : List Char) (path : List Char) : Option (List Char) :=
  match readFont fs (String.mk path) with
  | none => none
  | some bytes =>
    let mime := (getMimeType (lowerStr (extname (String.mk path)))).toList
    let dataUri :=
      "url(".toList ++ [dq] ++ "data:".toList ++ mime ++ ";base64,".toList
        ++ encodeBase64 bytes ++ [dq, ')']
    let patPlain := "url(".toList ++ path ++ [')']
    let patSingle := "url(".toList ++ [sq] ++ path ++ [sq, ')']
    let patDouble := "url(".toList ++ [dq] ++ path ++ [dq, ')']
    some (replaceAll (replaceAll (replaceAll css patPlain dataUri) patSingle dataUri)
      patDouble dataUri)

/-- Fold of the font loop, threading the css text and counting one file
read per font. -/
def inlineFonts (fs : FS) : List (List Char) → List Char × Nat → Option (List Char × Nat)
  | [], acc => some acc
  | p :: ps, acc =>
    match inlineFont fs acc.1 p with
    | none => none
    | some css' => inlineFonts fs ps (css', acc.2 + 1)

/-- Lines 70–95 without the cache: read the stylesheet (one file read),
collect the de-duplicated font references, and inline each. Returns the
rewritten text and the total number of file reads. -/
def loadKatexCssCompute (fs : FS) : Option (List Char × Nat) :=
  let css0 := fs.cssText.toList
  let refs := dedupFirst (findFontRefs css0)
  inlineFonts fs refs (css0, 1)

/-- A fresh (uncached) run of `loadKatexCss`: compute, then store the result
in the `cachedKatexCss` cell. -/
def loadKatexCssFresh (fs : FS) : Option (String × Option String × Nat) :=
  (loadKatexCssCompute fs).map fun r => (String.mk r.1, some (String.mk r.1), r.2)

/-- Lines 65–100, `loadKatexCss`: when `cachedKatexCss` holds a truthy
string, return it with no file reads; otherwise compute, cache and return.
The result triple is (returned text, new cache cell, file reads). -/
def loadKatexCss (fs : FS) (cache : Option String) : Option (String × Option String × Nat) :=
  match cache with
  | some s => if s ≠ "" then some (s, some s, 0) else loadKatexCssFresh fs
  | none => loadKatexCssFresh fs

/-! ## Output destination (lines 189–192) -/

/-- The two input shapes accepted by `convertMdToPdf` (line 126). -/
inductive MdInput where
  | path (p : String) : MdInput
  | content (c : String) : MdInput

/-- Modelled from the spec: `getOutputFilePath` lives in
`src/lib/get-output-file-path.ts`, which is not among the provided sources;
per the spec it derives a "sibling path" of the markdown file carrying the
requested extension, so the model swaps the input file's extension for the
requested one. -/
def getOutputFilePath (mdFilePath : String) (extension : String) : String :=
  mdFilePath.dropRight (extname mdFilePath).length ++ "." ++ extension

/-- Lines 190–192: when `config.dest` is `undefined`, derive it — a sibling
HTML path when `as_html` is truthy, a sibling PDF path otherwise, and the
`stdout` sentinel for in-memory content input; an already-set `dest` is left
unchanged. -/
def setDest (input : MdInput) (config : Obj) : Obj :=
  match aget config "dest" with
  | some _ => config
  | none =>
    match input with
    | .path p =>
      aset config "dest"
        (.str (getOutputFilePath p (if truthyOpt (aget config "as_html") then "html" else "pdf")))
    | .content _ => aset config "dest" (.str "stdout")

/-! ## getMarked (src/lib/get-marked-with-highlighter.ts, lines 4–20) -/

/-- A marked option value: the `highlight` callback or a plain string. -/
inductive MarkedVal where
  | func (f : String → String → String) : MarkedVal
  | str (s : String) : MarkedVal

/-- The marked options bag. -/
abbrev MarkedOptions := List (String × MarkedVal)

/-- The marked module state set up by `getMarked`: the options installed via
`marked.setOptions` and the extensions registered via `marked.use`. -/
structure MarkedState where
  options : MarkedOptions
  extensions : List Value

/-- Lines 6–10, the default highlighter: highlight with the supplied
language name when highlight.js recognizes it (`getLanguage`), with
`plaintext` otherwise. The highlight.js collaborators are the parameters
`getLanguage` and `hljsHighlight` (returning `.value`). -/
def defaultHighlight (getLanguage : String → Bool) (hljsHighlight : String → String → String)
    (code languageName : String) : String :=
  let language := if getLanguage languageName then languageName else "plaintext"
  hljsHighlight code language

/-- Lines 4–20, `getMarked`: install the default `highlight` and
`langPrefix` options with the caller's options spread over them, and
register the extensions when the list is nonempty. -/
def getMarked (getLanguage : String → Bool) (hljsHighlight : String → String → String)
    (options : MarkedOptions) (extensions : List Value) : MarkedState :=
  { options :=
      [ ("highlight", MarkedVal.func (defaultHighlight getLanguage hljsHighlight))
      , ("langPrefix", MarkedVal.str "hljs ") ] ++ options
  , extensions := if extensions.length > 0 then extensions else [] }


/-- A decidable sufficient condition for a pattern to match nowhere inside
`a` — even a match spilling over `a`'s right end into unknown following
text: for every start position inside `a`, the pattern already disagrees
with what is left of `a` from there. -/
def windowOK (pat a : List Char) : Bool :=
  (List.range a.length).all fun i => !((pat.take (a.length - i)).isPrefixOf (a.drop i))

/-- Test fixture for the inliner: the font path under which the stylesheet
references its font. -/
def kPath : List Char := "fonts/k.woff2".toList

/-- The concrete data-URI prefix produced for the fixture font. -/
def uriPre : List Char := "url(".toList ++ [dq] ++ "data:font/woff2;base64,".toList

/-- The data-URI suffix: closing quote and parenthesis. -/
def uriSuf : List Char := [dq, ')']

/-- The full replacement URI for the fixture font with bytes `d`. -/
def uriOf (d : List Nat) : List Char := uriPre ++ encodeBase64 d ++ uriSuf

/-- The unquoted form of the fixture reference. -/
def patPlain : List Char := "url(".toList ++ kPath ++ [')']

/-- The single-quoted form of the fixture reference. -/
def patSingle : List Char := "url(".toList ++ [sq] ++ kPath ++ [sq, ')']

/-- The double-quoted form of the fixture reference. -/
def patDouble : List Char := "url(".toList ++ [dq] ++ kPath ++ [dq, ')']

/-- Filler text around the three references (no `u`, so no match can start
inside it). -/
def cssA : List Char := "a:".toList

/-- Filler text. -/
def cssB : List Char := " b:".toList

/-- Filler text. -/
def cssC : List Char := " c:".toList

/-- Filler text. -/
def cssD : List Char := " d".toList

/-- The fixture stylesheet: the same font referenced unquoted,
single-quoted and double-quoted. -/
def cssX : List Char := cssA ++ patPlain ++ cssB ++ patSingle ++ cssC ++ patDouble ++ cssD

/-! ## Association-list lemmas -/

theorem aget_append {α : Type} (o1 o2 : List (String × α)) (k : String) :
    aget (o1 ++ o2) k = match aget o2 k with | some v => some v | none => aget o1 k := by
  induction o1 with
  | nil => simp only [List.nil_append]; cases aget o2 k <;> simp [aget]
  | cons h t ih =>
    obtain ⟨k', v⟩ := h
    simp only [List.cons_append, aget, List.append_eq]
    rw [ih]
    cases aget o2 k <;> cases aget t k <;> simp

theorem aget_single {α : Type} (k' k : String) (v : α) :
    aget [(k', v)] k = if k' = k then some v else none := by
  simp [aget]

theorem aget_set_self {α : Type} (o : List (String × α)) (k : String) (v : α) :
    aget (aset o k v) k = some v := by
  show aget (o ++ [(k, v)]) k = some v
  rw [aget_append, aget_single, if_pos rfl]

theorem aget_set_ne {α : Type} (o : List (String × α)) (k k' : String) (v : α)
    (h : k' ≠ k) : aget (aset o k v) k' = aget o k' := by
  show aget (o ++ [(k, v)]) k' = aget o k'
  rw [aget_append, aget_single, if_neg (Ne.symm h)]

/-! ## Merge-stage lemmas -/

theorem mergeFrontMatter_err (config : Obj) : mergeFrontMatter config .err = (config, true) := rfl

theorem aget_mergeFrontMatter_ok_pdf (config d : Obj) :
    aget (mergeFrontMatter config (.ok d)).1 "pdf_options" =
      some (.obj (spreadFields (aget config "pdf_options") ++ spreadFields (aget d "pdf_options"))) :=
  aget_set_self _ _ _

theorem aget_mergeFrontMatter_ok_ne (config d : Obj) (k : String) (h : k ≠ "pdf_options") :
    aget (mergeFrontMatter config (.ok d)).1 k =
      match aget d k with | some v => some v | none => aget config k := by
  show aget (aset (config ++ d) "pdf_options" _) k = _
  rw [aget_set_ne _ _ _ _ h, aget_append]
  cases aget d k <;> rfl

theorem aget_applyHeaderFooter_ne (config : Obj) (k : String) (h : k ≠ "pdf_options") :
    aget (applyHeaderFooter config) k = aget config k := by
  unfold applyHeaderFooter
  split
  · split
    · exact aget_set_ne _ _ _ _ h
    · rfl
  · rfl

theorem aget_applyHeaderFooter_pdf (config : Obj) (po : Obj)
    (hpo : aget config "pdf_options" = some (.obj po)) :
    aget (applyHeaderFooter config) "pdf_options" =
      some (.obj (if (truthyOpt (aget po "headerTemplate") || truthyOpt (aget po "footerTemplate"))
            && (aget po "displayHeaderFooter").isNone
          then aset po "displayHeaderFooter" (.bool true) else po)) := by
  unfold applyHeaderFooter
  rw [hpo]
  by_cases hc : ((truthyOpt (aget po "headerTemplate") || truthyOpt (aget po "footerTemplate"))
      && (aget po "displayHeaderFooter").isNone) = true
  · simp only [hc, if_true]
    exact aget_set_self _ _ _
  · simp only [Bool.not_eq_true] at hc
    simp only [hc, Bool.false_eq_true, if_false]
    exact hpo

theorem aget_coerce_ne (config : Obj) (option k : String) (h : k ≠ option) :
    aget (coerceArrayOption config option) k = aget config k := by
  unfold coerceArrayOption
  split
  · rfl
  · exact aget_set_ne _ _ _ _ h
  · exact aget_set_ne _ _ _ _ h

theorem aget_coerce_self (config : Obj) (option : String) :
    aget (coerceArrayOption config option) option = some (coerceValue (aget config option)) := by
  cases hv : aget config option with
  | none => simp [coerceArrayOption, coerceValue, hv, aget_set_self]
  | some v => cases v <;> simp [coerceArrayOption, coerceValue, hv, aget_set_self]

theorem coerce_of_list (config : Obj) (option : String) (l : List Value)
    (h : aget config option = some (.list l)) : coerceArrayOption config option = config := by
  unfold coerceArrayOption
  rw [h]

theorem coerceValue_isList (x : Option Value) : ∃ l, coerceValue x = .list l := by
  cases x with
  | none => exact ⟨[], rfl⟩
  | some v => cases v <;> exact ⟨_, rfl⟩

theorem sanitize_unfold (config : Obj) :
    sanitizeArrayOptions config =
      coerceArrayOption (coerceArrayOption (coerceArrayOption
        (coerceArrayOption config "body_class") "script") "stylesheet") "marked_extensions" := rfl

theorem aget_sanitize_ne (config : Obj) (k : String) (h : k ∉ arrayOptions) :
    aget (sanitizeArrayOptions config) k = aget config k := by
  simp only [arrayOptions, List.mem_cons, List.not_mem_nil, or_false, not_or] at h
  obtain ⟨h1, h2, h3, h4⟩ := h
  rw [sanitize_unfold, aget_coerce_ne _ _ _ h4, aget_coerce_ne _ _ _ h3,
    aget_coerce_ne _ _ _ h2, aget_coerce_ne _ _ _ h1]

theorem aget_sanitize_mem (config : Obj) (k : String) (h : k ∈ arrayOptions) :
    aget (sanitizeArrayOptions config) k = some (coerceValue (aget config k)) := by
  rw [sanitize_unfold]
  have h' : k = "body_class" ∨ k = "script" ∨ k = "stylesheet" ∨ k = "marked_extensions" := by
    simpa [arrayOptions] using h
  rcases h' with rfl | rfl | rfl | rfl
  · rw [aget_coerce_ne _ _ _ (by decide), aget_coerce_ne _ _ _ (by decide),
      aget_coerce_ne _ _ _ (by decide), aget_coerce_self]
  · rw [aget_coerce_ne _ _ _ (by decide), aget_coerce_ne _ _ _ (by decide),
      aget_coerce_self, aget_coerce_ne _ _ _ (by decide)]
  · rw [aget_coerce_ne _ _ _ (by decide), aget_coerce_self,
      aget_coerce_ne _ _ _ (by decide), aget_coerce_ne _ _ _ (by decide)]
  · rw [aget_coerce_self, aget_coerce_ne _ _ _ (by decide),
      aget_coerce_ne _ _ _ (by decide), aget_coerce_ne _ _ _ (by decide)]

theorem sanitize_idem (config : Obj) :
    sanitizeArrayOptions (sanitizeArrayOptions config) = sanitizeArrayOptions config := by
  obtain ⟨l1, e1⟩ := coerceValue_isList (aget config "body_class")
  obtain ⟨l2, e2⟩ := coerceValue_isList (aget config "script")
  obtain ⟨l3, e3⟩ := coerceValue_isList (aget config "stylesheet")
  obtain ⟨l4, e4⟩ := coerceValue_isList (aget config "marked_extensions")
  have g1 : aget (sanitizeArrayOptions config) "body_class" = some (.list l1) := by
    rw [aget_sanitize_mem _ _ (by decide), e1]
  have g2 : aget (sanitizeArrayOptions config) "script" = some (.list l2) := by
    rw [aget_sanitize_mem _ _ (by decide), e2]
  have g3 : aget (sanitizeArrayOptions config) "stylesheet" = some (.list l3) := by
    rw [aget_sanitize_mem _ _ (by decide), e3]
  have g4 : aget (sanitizeArrayOptions config) "marked_extensions" = some (.list l4) := by
    rw [aget_sanitize_mem _ _ (by decide), e4]
  conv_lhs => rw [sanitize_unfold]
  rw [coerce_of_list _ _ _ g1, coerce_of_list _ _ _ g2,
    coerce_of_list _ _ _ g3, coerce_of_list _ _ _ g4]

theorem aget_mergeCliArgs (parse : String → Value) (config : Obj)
    (args : List (String × String)) (k : String) :
    aget (mergeCliArgs parse config args) k =
      match lastArg args k with
      | some arg => some (cliValue parse arg)
      | none => aget config k := by
  induction args generalizing config with
  | nil => rfl
  | cons a rest ih =>
    show aget (mergeCliArgs parse (aset config (cliKey a.1) (cliValue parse a)) rest) k = _
    rw [ih]
    cases h : lastArg rest k with
    | some r => simp [lastArg, h]
    | none =>
      by_cases hk : cliKey a.1 = k
      · simp [lastArg, h, hk, aget_set_self]
      · simp [lastArg, h, hk, aget_set_ne _ _ _ _ (Ne.symm hk)]

theorem lastArg_none (args : List (String × String)) (k : String)
    (h : ∀ arg ∈ args, cliKey arg.1 ≠ k) : lastArg args k = none := by
  induction args with
  | nil => rfl
  | cons a rest ih =>
    have hr := ih fun x hx => h x (List.mem_cons_of_mem _ hx)
    simp [lastArg, hr, h a (List.mem_cons_self _ _)]

/-! ## Extensional congruence of the merge stages -/

theorem aset_congr (a b : Obj) (h : ObjEquiv a b) (k : String) (v : Value) :
    ObjEquiv (aset a k v) (aset b k v) := by
  intro k'
  by_cases hk : k' = k
  · subst hk
    show aget (aset a k' v) k' = aget (aset b k' v) k'
    rw [aget_set_self, aget_set_self]
  · show aget (aset a k v) k' = aget (aset b k v) k'
    rw [aget_set_ne _ _ _ _ hk, aget_set_ne _ _ _ _ hk]
    exact h k'

theorem applyHeaderFooter_congr (a b : Obj) (h : ObjEquiv a b) :
    ObjEquiv (applyHeaderFooter a) (applyHeaderFooter b) := by
  unfold applyHeaderFooter
  rw [h "pdf_options"]
  cases hb : aget b "pdf_options" with
  | none => exact h
  | some v =>
    cases v <;> try exact h
    case obj po =>
      by_cases hc : ((truthyOpt (aget po "headerTemplate") || truthyOpt (aget po "footerTemplate"))
          && (aget po "displayHeaderFooter").isNone) = true
      · simp only [hc, if_true]
        exact aset_congr a b h _ _
      · simp only [Bool.not_eq_true] at hc
        simp only [hc, Bool.false_eq_true, if_false]
        exact h

theorem coerce_congr (a b : Obj) (h : ObjEquiv a b) (option : String) :
    ObjEquiv (coerceArrayOption a option) (coerceArrayOption b option) := by
  unfold coerceArrayOption
  rw [h option]
  cases hb : aget b option with
  | none => exact aset_congr a b h _ _
  | some v => cases v <;> first | exact h | exact aset_congr a b h _ _

theorem sanitize_congr (a b : Obj) (h : ObjEquiv a b) :
    ObjEquiv (sanitizeArrayOptions a) (sanitizeArrayOptions b) := by
  rw [sanitize_unfold, sanitize_unfold]
  exact coerce_congr _ _ (coerce_congr _ _ (coerce_congr _ _ (coerce_congr _ _ h _) _) _) _

theorem mergeCliArgs_congr (parse : String → Value) (a b : Obj)
    (args : List (String × String)) (h : ObjEquiv a b) :
    ObjEquiv (mergeCliArgs parse a args) (mergeCliArgs parse b args) := by
  induction args generalizing a b with
  | nil => exact h
  | cons x rest ih => exact ih _ _ (aset_congr a b h _ _)

theorem aget_mergeCliArgs_hit (parse : String → Value) (config : Obj)
    (args : List (String × String)) (k : String) (arg : String × String)
    (h : lastArg args k = some arg) :
    aget (mergeCliArgs parse config args) k = some (cliValue parse arg) := by
  rw [aget_mergeCliArgs, h]

theorem aget_mergeCliArgs_miss (parse : String → Value) (config : Obj)
    (args : List (String × String)) (k : String) (h : lastArg args k = none) :
    aget (mergeCliArgs parse config args) k = aget config k := by
  rw [aget_mergeCliArgs, h]

theorem aget_mergeFrontMatter_ok_hit (config d : Obj) (k : String) (v : Value)
    (hk : k ≠ "pdf_options") (hd : aget d k = some v) :
    aget (mergeFrontMatter config (.ok d)).1 k = some v := by
  rw [aget_mergeFrontMatter_ok_ne _ _ _ hk, hd]

theorem aget_mergeFrontMatter_ok_miss (config d : Obj) (k : String)
    (hk : k ≠ "pdf_options") (hd : aget d k = none) :
    aget (mergeFrontMatter config (.ok d)).1 k = aget config k := by
  rw [aget_mergeFrontMatter_ok_ne _ _ _ hk, hd]

theorem arrayOptions_ne_pdf (k : String) (h : k ∈ arrayOptions) : k ≠ "pdf_options" := by
  have h' : k = "body_class" ∨ k = "script" ∨ k = "stylesheet" ∨ k = "marked_extensions" := by
    simpa [arrayOptions] using h
  rcases h' with rfl | rfl | rfl | rfl <;> decide

/-! ## Claim C1 -/

/-- C1 (counterexample): the claim "for every key present only in defaults
and front matter, the merged configuration holds the front-matter value" is
false as stated: for the list-valued option `body_class`, a scalar
front-matter value `"x"` is held as its list coercion `["x"]`, not as the
front-matter value itself. -/
theorem c1_counterexample :
    aget (mergeLayers (fun s => Value.str s) [("body_class", Value.list [])]
        (.ok [("body_class", Value.str "x")]) []).1 "body_class"
      = some (Value.list [Value.str "x"])
    ∧ Value.list [Value.str "x"] ≠ Value.str "x" :=
  ⟨rfl, fun h => Value.noConfusion h⟩

/-- C1 (amended): after the full merge (defaults, front matter, CLI
overlay), (1) for every key assigned by an invocation override, the merged
configuration holds the (last) invocation-override value — for every key,
with no exception; (2) for a key absent from the invocation overrides and
present in the front matter, the front-matter value wins, provided the key
is not one of the four list-valued options and not `pdf_options`; (3) for a
list-valued option whose front-matter value is already a list, the
front-matter value equally wins. -/
theorem c1_merge_precedence (parse : String → Value) (defaults d : Obj)
    (args : List (String × String)) (k : String) :
    (∀ arg, lastArg args k = some arg →
        aget (mergeLayers parse defaults (.ok d) args).1 k = some (cliValue parse arg))
    ∧ (lastArg args k = none → k ∉ arrayOptions → k ≠ "pdf_options" →
        ∀ v, aget d k = some v →
        aget (mergeLayers parse defaults (.ok d) args).1 k = some v)
    ∧ (lastArg args k = none → k ∈ arrayOptions →
        ∀ l, aget d k = some (.list l) →
        aget (mergeLayers parse defaults (.ok d) args).1 k = some (.list l)) := by
  refine ⟨fun arg h => aget_mergeCliArgs_hit _ _ _ _ _ h, ?_, ?_⟩
  · intro hnone hk hp v hv
    show aget (mergeCliArgs parse (sanitizeArrayOptions (applyHeaderFooter
      (mergeFrontMatter defaults (.ok d)).1)) args) k = some v
    rw [aget_mergeCliArgs_miss _ _ _ _ hnone, aget_sanitize_ne _ _ hk,
      aget_applyHeaderFooter_ne _ _ hp, aget_mergeFrontMatter_ok_hit _ _ _ _ hp hv]
  · intro hnone hk l hv
    have hp := arrayOptions_ne_pdf k hk
    show aget (mergeCliArgs parse (sanitizeArrayOptions (applyHeaderFooter
      (mergeFrontMatter defaults (.ok d)).1)) args) k = some (.list l)
    rw [aget_mergeCliArgs_miss _ _ _ _ hnone, aget_sanitize_mem _ _ hk,
      aget_applyHeaderFooter_ne _ _ hp, aget_mergeFrontMatter_ok_hit _ _ _ _ hp hv]
    rfl

/-- C1 witness: a concrete three-layer merge in which the invocation
override wins for a key present in all three layers, and the front matter
wins for a key absent from the invocation overlay. -/
theorem c1_witness :
    aget (mergeLayers (fun s => Value.str s) [("title", Value.str "d")]
        (.ok [("title", Value.str "f")]) [("--title", "c")]).1 "title"
      = some (Value.str "c")
    ∧ aget (mergeLayers (fun s => Value.str s) [("title", Value.str "d")]
        (.ok [("title", Value.str "f")]) []).1 "title"
      = some (Value.str "f") :=
  ⟨(c1_merge_precedence (fun s => Value.str s) [("title", Value.str "d")]
      [("title", Value.str "f")] [("--title", "c")] "title").1 ("--title", "c") rfl,
   (c1_merge_precedence (fun s => Value.str s) [("title", Value.str "d")]
      [("title", Value.str "f")] [] "title").2.1 rfl (by decide) (by decide) _ rfl⟩

/-! ## Claim C2 -/

/-- C2: a front-matter parse error does not abort the merge: the warning
flag is emitted, the configuration leaves the front-matter merge step
unchanged, and the full merged configuration is extensionally the one built
from empty front matter, for any defaults whose `pdf_options` is an object
(the built-in defaults always supply one). -/
theorem c2_front_matter_error (parse : String → Value) (defaults : Obj)
    (po : List (String × Value)) (args : List (String × String))
    (hpo : aget defaults "pdf_options" = some (.obj po)) :
    (mergeLayers parse defaults .err args).2 = true
    ∧ (mergeFrontMatter defaults .err).1 = defaults
    ∧ ObjEquiv (mergeLayers parse defaults .err args).1
        (mergeLayers parse defaults (.ok []) args).1 := by
  refine ⟨rfl, rfl, ?_⟩
  have base : ObjEquiv (mergeFrontMatter defaults .err).1 (mergeFrontMatter defaults (.ok [])).1 := by
    intro k
    by_cases hk : k = "pdf_options"
    · subst hk
      show aget defaults "pdf_options" = aget (mergeFrontMatter defaults (.ok [])).1 "pdf_options"
      rw [aget_mergeFrontMatter_ok_pdf, hpo]
      simp [spreadFields, aget]
    · show aget defaults k = aget (mergeFrontMatter defaults (.ok [])).1 k
      rw [aget_mergeFrontMatter_ok_miss defaults [] k hk rfl]
  exact mergeCliArgs_congr parse _ _ args (sanitize_congr _ _ (applyHeaderFooter_congr _ _ base))

/-- C2 witness: a concrete erroring front matter: the warning is emitted
and the merged result answers property reads exactly as the empty-front-
matter merge does. -/
theorem c2_witness :
    (mergeLayers (fun s => Value.str s) [("pdf_options", Value.obj [])] .err []).2 = true
    ∧ ∀ k, aget (mergeLayers (fun s => Value.str s) [("pdf_options", Value.obj [])] .err []).1 k
        = aget (mergeLayers (fun s => Value.str s) [("pdf_options", Value.obj [])] (.ok []) []).1 k :=
  ⟨(c2_front_matter_error (fun s => Value.str s) [("pdf_options", Value.obj [])] [] [] rfl).1,
   (c2_front_matter_error (fun s => Value.str s) [("pdf_options", Value.obj [])] [] [] rfl).2.2⟩

/-! ## Claim C3 -/

/-- C3: after the defaults/front-matter merge, each of the four list-valued
options is coerced — an already-list value is unchanged, a truthy non-list
value becomes the one-element list, a falsy value (or absent key) becomes
the empty list — the coercion is idempotent, and a value assigned by an
invocation override is stored verbatim, never coerced. -/
theorem c3_list_coercion (config : Obj) (k : String) (hk : k ∈ arrayOptions) :
    (∀ l, aget config k = some (.list l) →
        aget (sanitizeArrayOptions config) k = some (.list l))
    ∧ (∀ v, aget config k = some v → (∀ l, v ≠ .list l) →
        aget (sanitizeArrayOptions config) k = some (.list (if v.truthy then [v] else [])))
    ∧ (aget config k = none → aget (sanitizeArrayOptions config) k = some (.list []))
    ∧ sanitizeArrayOptions (sanitizeArrayOptions config) = sanitizeArrayOptions config
    ∧ (∀ (parse : String → Value) (defaults d : Obj) (args : List (String × String)) arg,
        lastArg args k = some arg →
        aget (mergeLayers parse defaults (.ok d) args).1 k = some (cliValue parse arg)) := by
  refine ⟨?_, ?_, ?_, sanitize_idem config, ?_⟩
  · intro l hl
    rw [aget_sanitize_mem _ _ hk, hl]
    rfl
  · intro v hv hne
    rw [aget_sanitize_mem _ _ hk, hv]
    cases v with
    | list l => exact absurd rfl (hne l)
    | null => rfl
    | bool b => rfl
    | num n => rfl
    | str s => rfl
    | obj o => rfl
  · intro hnone
    rw [aget_sanitize_mem _ _ hk, hnone]
    rfl
  · intro parse defaults d args arg h
    exact aget_mergeCliArgs_hit _ _ _ _ _ h

/-- C3 witness: concrete coercions — a scalar becomes a one-element list, a
list is unchanged, an absent value becomes the empty list, the coercion is
idempotent, and a CLI-assigned scalar for a list-valued option is stored
verbatim. -/
theorem c3_witness :
    aget (sanitizeArrayOptions [("body_class", Value.str "x")]) "body_class"
      = some (Value.list [Value.str "x"])
    ∧ aget (sanitizeArrayOptions [("script", Value.list [Value.str "s"])]) "script"
      = some (Value.list [Value.str "s"])
    ∧ aget (sanitizeArrayOptions ([] : Obj)) "stylesheet" = some (Value.list [])
    ∧ sanitizeArrayOptions (sanitizeArrayOptions [("body_class", Value.str "x")])
      = sanitizeArrayOptions [("body_class", Value.str "x")]
    ∧ aget (mergeLayers (fun s => Value.str s) [] (.ok []) [("--body-class", "bare")]).1 "body_class"
      = some (Value.str "bare") :=
  ⟨(c3_list_coercion [("body_class", Value.str "x")] "body_class" (by decide)).2.1
      (Value.str "x") rfl (fun l h => Value.noConfusion h),
   (c3_list_coercion [("script", Value.list [Value.str "s"])] "script" (by decide)).1
      [Value.str "s"] rfl,
   (c3_list_coercion [] "stylesheet" (by decide)).2.2.1 rfl,
   (c3_list_coercion [("body_class", Value.str "x")] "body_class" (by decide)).2.2.2.1,
   (c3_list_coercion [] "body_class" (by decide)).2.2.2.2
      (fun s => Value.str s) [] [] [("--body-class", "bare")] ("--body-class", "bare") rfl⟩

/-! ## Claim C4 -/

/-- C4 (counterexample): `pdf_options` is *not* always merged field-by-
field: an invocation-time `--pdf-options` override replaces it wholesale,
dropping the `format` field that the defaults layer supplied and the
override omitted. -/
theorem c4_counterexample :
    aget (mergeLayers (fun s => if s = "s2" then Value.obj [("scale", Value.num 2)] else Value.str s)
        [("pdf_options", Value.obj [("scale", Value.num 1), ("format", Value.str "A4")])]
        (.ok []) [("--pdf-options", "s2")]).1 "pdf_options"
      = some (Value.obj [("scale", Value.num 2)])
    ∧ aget [("scale", Value.num 2)] "format" = none
    ∧ aget [("scale", Value.num 1), ("format", Value.str "A4")] "format" = some (Value.str "A4") :=
  ⟨rfl, rfl, rfl⟩

/-- C4 (amended): across the defaults and front-matter layers,
`pdf_options` is merged field-by-field — fields of the front-matter layer
override individually and fields present only in the defaults layer are
preserved — provided no invocation override assigns `pdf_options` (an
invocation `--pdf-options` replaces the object wholesale). -/
theorem c4_pdf_options_fieldwise (parse : String → Value) (defaults d : Obj)
    (args : List (String × String)) (po0 po1 : Obj)
    (h0 : aget defaults "pdf_options" = some (.obj po0))
    (h1 : aget d "pdf_options" = some (.obj po1))
    (hargs : ∀ arg ∈ args, cliKey arg.1 ≠ "pdf_options") :
    ∃ po', aget (mergeLayers parse defaults (.ok d) args).1 "pdf_options" = some (.obj po')
      ∧ (∀ f v, aget po1 f = some v → aget po' f = some v)
      ∧ (∀ f v, aget po0 f = some v → aget po1 f = none → aget po' f = some v) := by
  have hmerged : aget (mergeFrontMatter defaults (.ok d)).1 "pdf_options"
      = some (.obj (po0 ++ po1)) := by
    rw [aget_mergeFrontMatter_ok_pdf, h0, h1]
    rfl
  have happly := aget_applyHeaderFooter_pdf _ _ hmerged
  have hfinal : aget (mergeLayers parse defaults (.ok d) args).1 "pdf_options"
      = aget (applyHeaderFooter (mergeFrontMatter defaults (.ok d)).1) "pdf_options" := by
    show aget (mergeCliArgs parse (sanitizeArrayOptions (applyHeaderFooter
      (mergeFrontMatter defaults (.ok d)).1)) args) "pdf_options" = _
    rw [aget_mergeCliArgs_miss _ _ _ _ (lastArg_none _ _ hargs),
      aget_sanitize_ne _ _ (by decide)]
  have hget : ∀ f v, aget (po0 ++ po1) f = some v →
      (f = "displayHeaderFooter" → (aget (po0 ++ po1) "displayHeaderFooter").isNone = false) := by
    intro f v hf hf'
    subst hf'
    rw [hf]
    rfl
  by_cases hc : ((truthyOpt (aget (po0 ++ po1) "headerTemplate")
      || truthyOpt (aget (po0 ++ po1) "footerTemplate"))
      && (aget (po0 ++ po1) "displayHeaderFooter").isNone) = true
  · refine ⟨aset (po0 ++ po1) "displayHeaderFooter" (.bool true), ?_, ?_, ?_⟩
    · rw [hfinal, happly, if_pos hc]
    · intro f v hf
      have hfv : aget (po0 ++ po1) f = some v := by rw [aget_append, hf]
      by_cases hdf : f = "displayHeaderFooter"
      · exact absurd (Bool.and_elim_right hc) (by simp [hget f v hfv hdf])
      · rw [aget_set_ne _ _ _ _ hdf]; exact hfv
    · intro f v hf hm
      have hfv : aget (po0 ++ po1) f = some v := by rw [aget_append, hm, hf]
      by_cases hdf : f = "displayHeaderFooter"
      · exact absurd (Bool.and_elim_right hc) (by simp [hget f v hfv hdf])
      · rw [aget_set_ne _ _ _ _ hdf]; exact hfv
  · refine ⟨po0 ++ po1, ?_, ?_, ?_⟩
    · rw [hfinal, happly, if_neg hc]
    · intro f v hf
      rw [aget_append, hf]
    · intro f v hf hm
      rw [aget_append, hm, hf]

/-- C4 witness: the spec's own example — defaults
`pdf_options = (scale 1, format A4)` plus front matter
`pdf_options = (scale 2)` merges to scale 2 *and* format A4. -/
theorem c4_witness :
    ∃ po', aget (mergeLayers (fun s => Value.str s)
        [("pdf_options", Value.obj [("scale", Value.num 1), ("format", Value.str "A4")])]
        (.ok [("pdf_options", Value.obj [("scale", Value.num 2)])]) []).1 "pdf_options"
        = some (Value.obj po')
      ∧ aget po' "scale" = some (Value.num 2)
      ∧ aget po' "format" = some (Value.str "A4") := by
  obtain ⟨po', hp, hov, hpres⟩ := c4_pdf_options_fieldwise (fun s => Value.str s)
    [("pdf_options", Value.obj [("scale", Value.num 1), ("format", Value.str "A4")])]
    [("pdf_options", Value.obj [("scale", Value.num 2)])] [] _ _ rfl rfl (by simp)
  exact ⟨po', hp, hov "scale" _ rfl, hpres "format" _ rfl rfl⟩

/-! ## Claim C8 -/

/-- C8 (counterexample): the derivation of `displayHeaderFooter` runs
*before* the invocation overlay, so a `headerTemplate` supplied via
`--pdf-options` — with `displayHeaderFooter` set by no layer — does not
force `displayHeaderFooter = true` in the merged configuration, contrary to
the claim's "any layer" reading. -/
theorem c8_counterexample :
    ∃ po, aget (mergeLayers
        (fun s => if s = "ht" then Value.obj [("headerTemplate", Value.str "x")] else Value.str s)
        [("pdf_options", Value.obj [])] (.ok []) [("--pdf-options", "ht")]).1 "pdf_options"
        = some (Value.obj po)
      ∧ truthyOpt (aget po "headerTemplate") = true
      ∧ aget po "displayHeaderFooter" = none :=
  ⟨[("headerTemplate", Value.str "x")], rfl, rfl, rfl⟩

/-- C8 (amended): the derivation applies to the configuration produced by
the defaults/front-matter merge: when its `pdf_options` carries a truthy
header or footer template and `displayHeaderFooter` was set by neither of
those layers, the merged configuration holds `displayHeaderFooter = true`;
a `displayHeaderFooter` explicitly set by defaults or front matter is kept
— in both cases provided no invocation override assigns `pdf_options`
(invocation overlays happen after the derivation and are not re-derived). -/
theorem c8_displayHeaderFooter (parse : String → Value) (defaults : Obj) (fm : FrontMatter)
    (args : List (String × String)) (po : Obj)
    (hpo : aget (mergeFrontMatter defaults fm).1 "pdf_options" = some (.obj po))
    (hargs : ∀ arg ∈ args, cliKey arg.1 ≠ "pdf_options") :
    ((truthyOpt (aget po "headerTemplate") || truthyOpt (aget po "footerTemplate")) = true →
      aget po "displayHeaderFooter" = none →
      ∃ po', aget (mergeLayers parse defaults fm args).1 "pdf_options" = some (.obj po')
        ∧ aget po' "displayHeaderFooter" = some (.bool true))
    ∧ (∀ v, aget po "displayHeaderFooter" = some v →
      ∃ po', aget (mergeLayers parse defaults fm args).1 "pdf_options" = some (.obj po')
        ∧ aget po' "displayHeaderFooter" = some v) := by
  have hfinal : ∀ po2, aget (applyHeaderFooter (mergeFrontMatter defaults fm).1) "pdf_options"
      = some (.obj po2) →
      aget (mergeLayers parse defaults fm args).1 "pdf_options" = some (.obj po2) := by
    intro po2 h2
    show aget (mergeCliArgs parse (sanitizeArrayOptions (applyHeaderFooter
      (mergeFrontMatter defaults fm).1)) args) "pdf_options" = _
    rw [aget_mergeCliArgs_miss _ _ _ _ (lastArg_none _ _ hargs),
      aget_sanitize_ne _ _ (by decide), h2]
  constructor
  · intro htf hdhf
    refine ⟨aset po "displayHeaderFooter" (.bool true), hfinal _ ?_, aget_set_self _ _ _⟩
    rw [aget_applyHeaderFooter_pdf _ _ hpo]
    simp [htf, hdhf]
  · intro v hv
    refine ⟨po, hfinal _ ?_, hv⟩
    rw [aget_applyHeaderFooter_pdf _ _ hpo]
    simp [hv]

/-- C8 witness: a defaults-supplied `headerTemplate` with
`displayHeaderFooter` unset yields `displayHeaderFooter = true` in the
merged configuration. -/
theorem c8_witness :
    ∃ po', aget (mergeLayers (fun s => Value.str s)
        [("pdf_options", Value.obj [("headerTemplate", Value.str "h")])] (.ok []) []).1 "pdf_options"
        = some (Value.obj po')
      ∧ aget po' "displayHeaderFooter" = some (Value.bool true) := by
  obtain ⟨po', h1, h2⟩ := (c8_displayHeaderFooter (fun s => Value.str s)
    [("pdf_options", Value.obj [("headerTemplate", Value.str "h")])] (.ok []) []
    [("headerTemplate", Value.str "h")] rfl (by simp)).1 rfl rfl
  exact ⟨po', h1, h2⟩

/-! ## Claim C9 -/

/-- C9: when `dest` is unset, a file-backed input resolves to the derived
HTML sibling path if `as_html` is truthy and to the derived PDF sibling
path otherwise, while in-memory content resolves to the `stdout` sentinel;
a `dest` set by any layer leaves the configuration unchanged. -/
theorem c9_dest_resolution (config : Obj) :
    (aget config "dest" = none →
      (∀ p, truthyOpt (aget config "as_html") = true →
        aget (setDest (.path p) config) "dest" = some (.str (getOutputFilePath p "html")))
      ∧ (∀ p, truthyOpt (aget config "as_html") = false →
        aget (setDest (.path p) config) "dest" = some (.str (getOutputFilePath p "pdf")))
      ∧ (∀ c, aget (setDest (.content c) config) "dest" = some (.str "stdout")))
    ∧ (∀ v, aget config "dest" = some v → ∀ input, setDest input config = config) := by
  constructor
  · intro hdest
    refine ⟨fun p hhtml => ?_, fun p hhtml => ?_, fun c => ?_⟩
    · unfold setDest
      rw [hdest]
      simp only [hhtml, if_true]
      exact aget_set_self _ _ _
    · unfold setDest
      rw [hdest]
      simp only [hhtml, Bool.false_eq_true, if_false]
      exact aget_set_self _ _ _
    · unfold setDest
      rw [hdest]
      exact aget_set_self _ _ _
  · intro v hv input
    unfold setDest
    rw [hv]

/-- C9 witness: concrete resolutions — a file input with `as_html` unset
gets the PDF sibling path, content input gets `stdout`, and a set `dest` is
untouched. -/
theorem c9_witness :
    aget (setDest (.path "/docs/st.md") []) "dest" = some (Value.str "/docs/st.pdf")
    ∧ aget (setDest (.content "md") []) "dest" = some (Value.str "stdout")
    ∧ setDest (.content "md") [("dest", Value.str "out.pdf")] = [("dest", Value.str "out.pdf")] :=
  ⟨((c9_dest_resolution []).1 rfl).2.1 "/docs/st.md" rfl,
   ((c9_dest_resolution []).1 rfl).2.2 "md",
   (c9_dest_resolution [("dest", Value.str "out.pdf")]).2 _ rfl (.content "md")⟩

/-! ## Claim C10 -/

/-- C10: the default highlighter installed by `getMarked` highlights with
`plaintext` when highlight.js does not recognize the supplied language name
and with the name unchanged when it does; caller-supplied marked options
are spread after these defaults and override them key-wise. -/
theorem c10_highlighter (getLanguage : String → Bool) (hljsHighlight : String → String → String)
    (options : MarkedOptions) (extensions : List Value) :
    (∀ code languageName, getLanguage languageName = false →
        defaultHighlight getLanguage hljsHighlight code languageName
          = hljsHighlight code "plaintext")
    ∧ (∀ code languageName, getLanguage languageName = true →
        defaultHighlight getLanguage hljsHighlight code languageName
          = hljsHighlight code languageName)
    ∧ (aget options "highlight" = none →
        aget (getMarked getLanguage hljsHighlight options extensions).options "highlight"
          = some (.func (defaultHighlight getLanguage hljsHighlight)))
    ∧ (aget options "langPrefix" = none →
        aget (getMarked getLanguage hljsHighlight options extensions).options "langPrefix"
          = some (.str "hljs "))
    ∧ (∀ k v, aget options k = some v →
        aget (getMarked getLanguage hljsHighlight options extensions).options k = some v) := by
  refine ⟨fun c l h => by simp [defaultHighlight, h], fun c l h => by simp [defaultHighlight, h],
    ?_, ?_, ?_⟩
  · intro h
    show aget (_ ++ options) "highlight" = _
    rw [aget_append, h]
    rfl
  · intro h
    show aget (_ ++ options) "langPrefix" = _
    rw [aget_append, h]
    rfl
  · intro k v h
    show aget (_ ++ options) k = some v
    rw [aget_append, h]

/-- C10 witness: with a concrete recognizer that only knows `js`, an
unknown language is highlighted as plaintext, a known one as itself, the
defaults are installed, and a caller option overrides its default. -/
theorem c10_witness :
    defaultHighlight (fun s => s = "js") (fun c l => l ++ ":" ++ c) "x" "nope" = "plaintext:x"
    ∧ defaultHighlight (fun s => s = "js") (fun c l => l ++ ":" ++ c) "x" "js" = "js:x"
    ∧ aget (getMarked (fun s => s = "js") (fun c l => l ++ ":" ++ c) [] []).options "langPrefix"
      = some (.str "hljs ")
    ∧ aget (getMarked (fun s => s = "js") (fun c l => l ++ ":" ++ c)
        [("langPrefix", MarkedVal.str "mine ")] []).options "langPrefix"
      = some (MarkedVal.str "mine ") :=
  ⟨(c10_highlighter (fun s => s = "js") (fun c l => l ++ ":" ++ c) [] []).1 "x" "nope" (by decide),
   (c10_highlighter (fun s => s = "js") (fun c l => l ++ ":" ++ c) [] []).2.1 "x" "js" (by decide),
   (c10_highlighter (fun s => s = "js") (fun c l => l ++ ":" ++ c) [] []).2.2.2.1 rfl,
   (c10_highlighter (fun s => s = "js") (fun c l => l ++ ":" ++ c)
      [("langPrefix", MarkedVal.str "mine ")] []).2.2.2.2 "langPrefix" _ rfl⟩

/-! ## Claim C5 -/

theorem isKatexExtension_markedKatex (options : Option Value) :
    isKatexExtension (markedKatex options) = true := rfl

/-- C5: on a configuration whose `math_engine` is `katex`, whose extension
list holds no KaTeX extension yet and whose `css` is unset, running the
activator twice (same instance, so the weak-set marker is `true` the second
time) produces exactly one KaTeX extension entry and a `css` equal to the
inlined stylesheet — held exactly once — and the second run changes
nothing. -/
theorem c5_ensure_idempotent (katexCss : String) (config : Obj) (exts : List Value)
    (hme : aget config "math_engine" = some (.str "katex"))
    (hexts : aget config "marked_extensions" = some (.list exts))
    (h0 : exts.countP isKatexExtension = 0)
    (hcss : aget config "css" = none) :
    ∃ c1, ensureKatexSupport katexCss config false = some (c1, true)
      ∧ ensureKatexSupport katexCss c1 true = some (c1, true)
      ∧ (∃ l, aget c1 "marked_extensions" = some (.list l) ∧ l.countP isKatexExtension = 1)
      ∧ aget c1 "css" = some (.str katexCss) := by
  have hany : exts.any isKatexExtension = false := by
    rw [List.any_eq_false]
    intro x hx
    simpa using List.countP_eq_zero.mp h0 x hx
  refine ⟨aset (aset config "marked_extensions"
      (.list (exts ++ [markedKatex (aget config "math_engine_options")]))) "css"
      (.str katexCss), ?_, ?_, ?_, ?_⟩
  · have hcss' : aget (aset config "marked_extensions"
        (.list (exts ++ [markedKatex (aget config "math_engine_options")]))) "css" = none := by
      rw [aget_set_ne _ _ _ _ (by decide)]
      exact hcss
    unfold ensureKatexSupport
    simp [hme, hexts, hany, hcss', truthyOpt]
  · unfold ensureKatexSupport
    have hme' : aget (aset (aset config "marked_extensions"
        (.list (exts ++ [markedKatex (aget config "math_engine_options")]))) "css"
        (.str katexCss)) "math_engine" = some (.str "katex") := by
      rw [aget_set_ne _ _ _ _ (by decide), aget_set_ne _ _ _ _ (by decide)]
      exact hme
    have hexts' : aget (aset (aset config "marked_extensions"
        (.list (exts ++ [markedKatex (aget config "math_engine_options")]))) "css"
        (.str katexCss)) "marked_extensions"
        = some (.list (exts ++ [markedKatex (aget config "math_engine_options")])) := by
      rw [aget_set_ne _ _ _ _ (by decide)]
      exact aget_set_self _ _ _
    have hany' : (exts ++ [markedKatex (aget config "math_engine_options")]).any
        isKatexExtension = true := by
      rw [List.any_append]
      simp [isKatexExtension_markedKatex]
    simp [hme', hexts', hany']
  · refine ⟨exts ++ [markedKatex (aget config "math_engine_options")], ?_, ?_⟩
    · rw [aget_set_ne _ _ _ _ (by decide)]
      exact aget_set_self _ _ _
    · rw [List.countP_append, h0]
      rfl
  · exact aget_set_self _ _ _

/-- C5 witness: a concrete katex-engined configuration with an empty
extension list: both calls agree, the extension is added once and the css
once. -/
theorem c5_witness :
    ∃ c1, ensureKatexSupport "KCSS" [("math_engine", Value.str "katex"),
        ("marked_extensions", Value.list [])] false = some (c1, true)
      ∧ ensureKatexSupport "KCSS" c1 true = some (c1, true)
      ∧ (∃ l, aget c1 "marked_extensions" = some (Value.list l)
          ∧ l.countP isKatexExtension = 1)
      ∧ aget c1 "css" = some (Value.str "KCSS") :=
  c5_ensure_idempotent "KCSS" [("math_engine", Value.str "katex"),
    ("marked_extensions", Value.list [])] [] rfl rfl rfl rfl

/-! ## Claim C6 -/

/-- C6: when the first (uncached) `loadKatexCss` run returns a nonempty
text, it stores that text in the cache, and the second and every subsequent
call returns the cached string unchanged — same text, cache cell untouched
— performing zero file reads. -/
theorem c6_cache (fs : FS) (s : String) (cache' : Option String) (r : Nat)
    (h1 : loadKatexCss fs none = some (s, cache', r)) (hs : s ≠ "") :
    cache' = some s ∧ loadKatexCss fs (some s) = some (s, some s, 0) := by
  constructor
  · unfold loadKatexCss loadKatexCssFresh at h1
    cases hc : loadKatexCssCompute fs with
    | none => rw [hc] at h1; simp at h1
    | some p =>
      rw [hc] at h1
      simp only [Option.map_some', Option.some.injEq, Prod.mk.injEq] at h1
      obtain ⟨ha, hb, _⟩ := h1
      rw [← ha, ← hb]
  · unfold loadKatexCss
    simp [hs]

/-- C6 witness: a one-character stylesheet with no font references: the
first call performs one file read and fills the cache; the second returns
the cached text with zero reads. -/
theorem c6_witness :
    loadKatexCss ⟨"x", []⟩ none = some ("x", some "x", 1)
    ∧ loadKatexCss ⟨"x", []⟩ (some "x") = some ("x", some "x", 0) :=
  ⟨rfl, (c6_cache ⟨"x", []⟩ "x" (some "x") 1 rfl (by decide)).2⟩

/-! ## Claim C7: machinery -/

theorem replaceAll_nil (pat rep : List Char) : replaceAll [] pat rep = [] := by
  cases pat <;> simp [replaceAll]

theorem replaceAll_hit (s pat rep : List Char) (hp : pat ≠ []) :
    replaceAll (pat ++ s) pat rep = rep ++ replaceAll s pat rep := by
  match pat, hp with
  | p :: ps, _ =>
    show replaceAll (p :: (ps ++ s)) (p :: ps) rep = _
    rw [replaceAll]
    rw [if_pos (List.isPrefixOf_iff_prefix.mpr (by exact List.prefix_append (p :: ps) s))]
    simp [List.drop_left]

theorem replaceAll_skip_cons (c : Char) (cs pat rep : List Char) (hp : pat ≠ [])
    (h : ¬ pat <+: (c :: cs)) :
    replaceAll (c :: cs) pat rep = c :: replaceAll cs pat rep := by
  match pat, hp with
  | p :: ps, _ =>
    rw [replaceAll]
    rw [if_neg fun hb => h (List.isPrefixOf_iff_prefix.mp hb)]

theorem replaceAll_append_skip (a s pat rep : List Char) (hp : pat ≠ [])
    (h : ∀ i, i < a.length → ¬ pat <+: (a.drop i ++ s)) :
    replaceAll (a ++ s) pat rep = a ++ replaceAll s pat rep := by
  induction a with
  | nil => simp
  | cons c a' ih =>
    have h0 : ¬ pat <+: (c :: (a' ++ s)) := by simpa using h 0 (by simp)
    rw [List.cons_append, replaceAll_skip_cons c _ pat rep hp h0,
      ih fun i hi => by simpa using h (i + 1) (by simpa using Nat.succ_lt_succ hi)]
    rfl

theorem replaceAll_no_match (s pat rep : List Char) (hp : pat ≠ [])
    (h : ∀ i, i < s.length → ¬ pat <+: s.drop i) : replaceAll s pat rep = s := by
  induction s with
  | nil => exact replaceAll_nil pat rep
  | cons c cs ih =>
    rw [replaceAll_skip_cons c cs pat rep hp (by simpa using h 0 (by simp)),
      ih fun i hi => by simpa using h (i + 1) (by simpa using Nat.succ_lt_succ hi)]

theorem not_pref_of_windowOK (pat a : List Char) (hw : windowOK pat a = true) (s : List Char) :
    ∀ i, i < a.length → ¬ pat <+: (a.drop i ++ s) := by
  intro i hi hpre
  have hw' := List.all_eq_true.mp hw i (List.mem_range.mpr hi)
  rw [Bool.not_eq_eq_eq_not, Bool.not_true] at hw'
  obtain ⟨t, ht⟩ := hpre
  have hlen : (a.drop i).length = a.length - i := List.length_drop _ _
  have h2 : (a.drop i ++ s).take (a.length - i) = a.drop i := by
    rw [← hlen, List.take_left]
  have h4 : pat.take (a.length - i) <+: a.drop i := by
    rw [← h2, ← ht, List.take_append_eq_append_take]
    exact ⟨_, rfl⟩
  rw [← List.isPrefixOf_iff_prefix] at h4
  rw [hw'] at h4
  exact Bool.false_ne_true h4

theorem b64c_mem (i : Nat) : b64c i ∈ base64Table := by
  unfold b64c
  rw [List.getD_eq_getElem?_getD]
  cases h : base64Table[i]? with
  | none => decide
  | some c => simpa using List.getElem?_mem h

theorem encodeBase64_chars : ∀ (d : List Nat), ∀ c ∈ encodeBase64 d, c ∈ base64Table ∨ c = '='
  | [] => by simp [encodeBase64]
  | [b0] => by
    intro c hc
    simp only [encodeBase64, List.mem_cons, List.not_mem_nil, or_false] at hc
    rcases hc with rfl | rfl | rfl | rfl
    · exact Or.inl (b64c_mem _)
    · exact Or.inl (b64c_mem _)
    · exact Or.inr rfl
    · exact Or.inr rfl
  | [b0, b1] => by
    intro c hc
    simp only [encodeBase64, List.mem_cons, List.not_mem_nil, or_false] at hc
    rcases hc with rfl | rfl | rfl | rfl
    · exact Or.inl (b64c_mem _)
    · exact Or.inl (b64c_mem _)
    · exact Or.inl (b64c_mem _)
    · exact Or.inr rfl
  | b0 :: b1 :: b2 :: rest => by
    intro c hc
    rw [encodeBase64] at hc
    simp only [List.mem_cons] at hc
    rcases hc with rfl | rfl | rfl | rfl | hc
    · exact Or.inl (b64c_mem _)
    · exact Or.inl (b64c_mem _)
    · exact Or.inl (b64c_mem _)
    · exact Or.inl (b64c_mem _)
    · exact encodeBase64_chars rest c hc

/-- No occurrence of a `url(`-led pattern can start inside a run of base64
characters that is followed by the closing `")` of a data URI: the pattern's
`(` at index 3 (or an earlier character) always disagrees. -/
theorem not_pref_b64_core (pat w s : List Char)
    (hpat : pat.take 4 = ['u', 'r', 'l', '('])
    (hw : ∀ c ∈ w, c ∈ base64Table ∨ c = '=')
    (hwne : w ≠ [])
    (hs : s.take 2 = [dq, ')']) :
    ¬ pat <+: (w ++ s) := by
  rcases pat with _ | ⟨p0, _ | ⟨p1, _ | ⟨p2, _ | ⟨p3, pr⟩⟩⟩⟩ <;> simp [List.take] at hpat
  obtain ⟨rfl, rfl, rfl, rfl⟩ := hpat
  rcases s with _ | ⟨s0, _ | ⟨s1, s'⟩⟩ <;> simp [List.take] at hs
  obtain ⟨rfl, rfl⟩ := hs
  have hnotParen : ∀ c ∈ w, c ≠ '(' := by
    intro c hc
    rcases hw c hc with h | h
    · revert h
      have : ∀ x ∈ base64Table, x ≠ '(' := by decide
      exact this c
    · rw [h]; decide
  rintro ⟨t, ht⟩
  rcases w with _ | ⟨w0, _ | ⟨w1, _ | ⟨w2, _ | ⟨w3, w'⟩⟩⟩⟩
  · exact absurd rfl hwne
  · simp [dq] at ht
  · simp [dq] at ht
  · simp [dq] at ht
  · simp only [List.cons_append, List.cons.injEq] at ht
    obtain ⟨-, -, -, h3, -⟩ := ht
    exact hnotParen w3 (by simp) h3.symm

theorem not_pref_b64 (pat g s : List Char)
    (hpat : pat.take 4 = ['u', 'r', 'l', '('])
    (hg : ∀ c ∈ g, c ∈ base64Table ∨ c = '=')
    (hs : s.take 2 = [dq, ')']) :
    ∀ i, i < g.length → ¬ pat <+: (g.drop i ++ s) := by
  intro i hi
  apply not_pref_b64_core pat (g.drop i) s hpat
  · intro c hc
    exact hg c (List.mem_of_mem_drop hc)
  · intro hnil
    have := congrArg List.length hnil
    simp [List.length_drop] at this
    omega
  · exact hs

theorem c7_pass1 (d : List Nat) :
    replaceAll cssX patPlain (uriOf d)
      = cssA ++ (uriOf d ++ (cssB ++ (patSingle ++ (cssC ++ (patDouble ++ cssD))))) := by
  show replaceAll (cssA ++ (patPlain ++ (cssB ++ (patSingle ++ (cssC ++ (patDouble ++ cssD))))))
    patPlain (uriOf d) = _
  rw [replaceAll_append_skip _ _ _ _ (by decide) (not_pref_of_windowOK _ _ (by decide) _),
    replaceAll_hit _ _ _ (by decide),
    replaceAll_no_match _ _ _ (by decide) (by decide)]

theorem c7_pass2 (d : List Nat) :
    replaceAll (cssA ++ (uriOf d ++ (cssB ++ (patSingle ++ (cssC ++ (patDouble ++ cssD))))))
      patSingle (uriOf d)
      = cssA ++ (uriOf d ++ (cssB ++ (uriOf d ++ (cssC ++ (patDouble ++ cssD))))) := by
  have regroup : cssA ++ (uriOf d ++ (cssB ++ (patSingle ++ (cssC ++ (patDouble ++ cssD)))))
      = (cssA ++ uriPre) ++ (encodeBase64 d
          ++ ((uriSuf ++ cssB) ++ (patSingle ++ (cssC ++ (patDouble ++ cssD))))) := by
    simp [uriOf, List.append_assoc]
  rw [regroup,
    replaceAll_append_skip _ _ _ _ (by decide) (not_pref_of_windowOK _ _ (by decide) _),
    replaceAll_append_skip _ _ _ _ (by decide)
      (not_pref_b64 patSingle (encodeBase64 d)
        ((uriSuf ++ cssB) ++ (patSingle ++ (cssC ++ (patDouble ++ cssD))))
        (by decide) (encodeBase64_chars d) rfl),
    replaceAll_append_skip _ _ _ _ (by decide) (not_pref_of_windowOK _ _ (by decide) _),
    replaceAll_hit _ _ _ (by decide),
    replaceAll_no_match _ _ _ (by decide) (by decide)]
  simp [uriOf, List.append_assoc]

theorem c7_pass3 (d : List Nat) :
    replaceAll (cssA ++ (uriOf d ++ (cssB ++ (uriOf d ++ (cssC ++ (patDouble ++ cssD))))))
      patDouble (uriOf d)
      = cssA ++ (uriOf d ++ (cssB ++ (uriOf d ++ (cssC ++ (uriOf d ++ cssD))))) := by
  have regroup : cssA ++ (uriOf d ++ (cssB ++ (uriOf d ++ (cssC ++ (patDouble ++ cssD)))))
      = (cssA ++ uriPre) ++ (encodeBase64 d
          ++ ((uriSuf ++ (cssB ++ uriPre)) ++ (encodeBase64 d
            ++ ((uriSuf ++ cssC) ++ (patDouble ++ cssD))))) := by
    simp [uriOf, List.append_assoc]
  rw [regroup,
    replaceAll_append_skip _ _ _ _ (by decide) (not_pref_of_windowOK _ _ (by decide) _),
    replaceAll_append_skip _ _ _ _ (by decide)
      (not_pref_b64 patDouble (encodeBase64 d)
        ((uriSuf ++ (cssB ++ uriPre)) ++ (encodeBase64 d
          ++ ((uriSuf ++ cssC) ++ (patDouble ++ cssD))))
        (by decide) (encodeBase64_chars d) rfl),
    replaceAll_append_skip _ _ _ _ (by decide) (not_pref_of_windowOK _ _ (by decide) _),
    replaceAll_append_skip _ _ _ _ (by decide)
      (not_pref_b64 patDouble (encodeBase64 d)
        ((uriSuf ++ cssC) ++ (patDouble ++ cssD))
        (by decide) (encodeBase64_chars d) rfl),
    replaceAll_append_skip _ _ _ _ (by decide) (not_pref_of_windowOK _ _ (by decide) _),
    replaceAll_hit _ _ _ (by decide),
    replaceAll_no_match _ _ _ (by decide) (by decide)]
  simp [uriOf, List.append_assoc]

/-- C7: on a stylesheet referencing the same font unquoted, single-quoted
and double-quoted, the inliner rewrites all three occurrences — quoting
style notwithstanding — to the *same* `url("data:<mime>;base64,<data>")`
URI (`uriOf d`, byte-identical at every occurrence), where `<data>` is the
base64 encoding of the font's bytes `d` and `<mime>` comes from the fixed
extension table (conjuncts two to eight; the fixture font's `.woff2` maps
to `font/woff2`, which is the MIME type inside `uriOf`); the css file and
the single (de-duplicated) font account for exactly two file reads. -/
theorem c7_font_inlining (d : List Nat) :
    loadKatexCssCompute ⟨String.mk cssX, [(String.mk kPath, d)]⟩
      = some (cssA ++ (uriOf d ++ (cssB ++ (uriOf d ++ (cssC ++ (uriOf d ++ cssD))))), 2)
    ∧ getMimeType ".woff2" = "font/woff2"
    ∧ getMimeType ".woff" = "font/woff"
    ∧ getMimeType ".ttf" = "font/ttf"
    ∧ getMimeType ".otf" = "font/otf"
    ∧ getMimeType ".eot" = "application/vnd.ms-fontobject"
    ∧ getMimeType ".svg" = "image/svg+xml"
    ∧ (∀ e, e ∉ [".woff2", ".woff", ".ttf", ".otf", ".eot", ".svg"] →
        getMimeType e = "application/octet-stream") := by
  refine ⟨?_, rfl, rfl, rfl, rfl, rfl, rfl, ?_⟩
  · have e1 : loadKatexCssCompute ⟨String.mk cssX, [(String.mk kPath, d)]⟩
        = some (replaceAll (replaceAll (replaceAll cssX patPlain (uriOf d))
            patSingle (uriOf d)) patDouble (uriOf d), 2) := rfl
    rw [e1, c7_pass1, c7_pass2, c7_pass3]
  · intro e he
    simp only [List.mem_cons, List.not_mem_nil, or_false, not_or] at he
    obtain ⟨h1, h2, h3, h4, h5, h6⟩ := he
    simp [getMimeType, h1, h2, h3, h4, h5, h6]

/-- C7 witness: the fixture evaluated at the concrete font bytes
`[77, 97, 110]` (base64 `TWFu`), plus the default MIME clause at a concrete
unknown extension. -/
theorem c7_witness :
    loadKatexCssCompute ⟨String.mk cssX, [(String.mk kPath, [77, 97, 110])]⟩
      = some (cssA ++ (uriOf [77, 97, 110] ++ (cssB ++ (uriOf [77, 97, 110]
          ++ (cssC ++ (uriOf [77, 97, 110] ++ cssD))))), 2)
    ∧ (".x" : String) ∉ [".woff2", ".woff", ".ttf", ".otf", ".eot", ".svg"]
    ∧ getMimeType ".x" = "application/octet-stream" :=
  ⟨(c7_font_inlining [77, 97, 110]).1, by decide,
   (c7_font_inlining [77, 97, 110]).2.2.2.2.2.2.2 ".x" (by decide)⟩
end MdToPdf

